import Mathlib

/-!
Verification of the GradePal grade-planner computation core
(`app/grade-planner/[subject].tsx`).

Modelling conventions: JavaScript numbers are modelled as exact rationals
(`ℚ`); `Math.max` / `Math.min` / `Math.abs` are modelled by `jsMax` / `jsMin`
/ `jsAbs`; the `Number(string)` conversion is modelled by `jsNumber`, which
implements the ECMAScript string-numeric-literal grammar for finite decimal,
hexadecimal, octal and binary numerals (the `Infinity` production is not
representable in `ℚ` and is modelled as a failed parse; numeric values are
kept exact rather than rounded to binary floating point).  `null` /
`undefined` results are modelled with `Option`.
-/

namespace GradePal

/-- `Math.max` on two numbers. -/
def jsMax (a b : ℚ) : ℚ := if a ≤ b then b else a

/-- `Math.min` on two numbers. -/
def jsMin (a b : ℚ) : ℚ := if a ≤ b then a else b

/-- `Math.abs`. -/
def jsAbs (q : ℚ) : ℚ := if q < 0 then -q else q

/-- `clamp(n, lo, hi)` from the source: `Math.max(lo, Math.min(hi, n))`.
The source's default arguments are `lo = 0`, `hi = 100`; call sites below
pass `0 100` explicitly. -/
def clamp (n lo hi : ℚ) : ℚ := jsMax lo (jsMin hi n)

/-- `approxEqual(a, b, eps)` from the source: `Math.abs(a - b) <= eps`.
The source's default `eps` is `0.05`; the call site passes it explicitly
below as `1/20`. -/
def approxEqual (a b eps : ℚ) : Bool := decide (jsAbs (a - b) ≤ eps)

/-- Whitespace recognised by the JS `Number` conversion and `String.trim`
(modelled for the ASCII range plus NBSP). -/
def isWsChar (c : Char) : Bool :=
  c = ' ' || c = '\t' || c = '\n' || c = '\r' || c = '\x0b' || c = '\x0c' || c = '\xa0'

/-- Strip leading and trailing whitespace from a character list. -/
def trimWs (l : List Char) : List Char :=
  ((l.dropWhile isWsChar).reverse.dropWhile isWsChar).reverse

/-- JS `String.prototype.trim`. -/
def jsTrim (s : String) : String := ⟨trimWs s.data⟩

/-- Numeric value of a decimal digit character. -/
def digToNat (c : Char) : Nat := c.toNat - 48

/-- Consume a maximal run of decimal digits, accumulating their value and
count; returns `(value, digitCount, rest)`. -/
def lexDigitsAux : List Char → Nat → Nat → Nat × Nat × List Char
  | c :: cs, v, n =>
    if c.isDigit then lexDigitsAux cs (v * 10 + digToNat c) (n + 1) else (v, n, c :: cs)
  | [], v, n => (v, n, [])

/-- Consume a nonempty run of decimal digits; `none` if the input does not
start with a digit. -/
def lexDigits (l : List Char) : Option (Nat × Nat × List Char) :=
  match l with
  | c :: _ => if c.isDigit then some (lexDigitsAux l 0 0) else none
  | [] => none

/-- Consume an optional exponent part `([eE][+-]?digits)`; a bare `e`/`E`
with no digits rejects the whole literal. -/
def lexExp (l : List Char) : Option (Int × List Char) :=
  match l with
  | c :: cs =>
    if c = 'e' ∨ c = 'E' then
      match cs with
      | '+' :: cs2 =>
        match lexDigits cs2 with
        | some (e, _, r) => some ((e : Int), r)
        | none => none
      | '-' :: cs2 =>
        match lexDigits cs2 with
        | some (e, _, r) => some (-(e : Int), r)
        | none => none
      | _ =>
        match lexDigits cs with
        | some (e, _, r) => some ((e : Int), r)
        | none => none
    else some (0, l)
  | [] => some (0, [])

/-- Consume a `StrUnsignedDecimalLiteral` (finite forms):
`digits [. digits] [exp]` or `. digits [exp]`. -/
def lexUnsignedDec (l : List Char) : Option (ℚ × List Char) :=
  match l with
  | '.' :: cs =>
    match lexDigits cs with
    | some (f, n, r) =>
      match lexExp r with
      | some (e, r2) => some (((f : ℚ) / 10 ^ n) * (10 : ℚ) ^ e, r2)
      | none => none
    | none => none
  | _ =>
    match lexDigits l with
    | some (i, _, r) =>
      match r with
      | '.' :: r2 =>
        match lexDigits r2 with
        | some (f, n, r3) =>
          match lexExp r3 with
          | some (e, r4) => some ((((i : ℚ) + (f : ℚ) / 10 ^ n)) * (10 : ℚ) ^ e, r4)
          | none => none
        | none =>
          match lexExp r2 with
          | some (e, r3) => some ((i : ℚ) * (10 : ℚ) ^ e, r3)
          | none => none
      | _ =>
        match lexExp r with
        | some (e, r2) => some ((i : ℚ) * (10 : ℚ) ^ e, r2)
        | none => none
    | none => none

/-- Consume a `StrDecimalLiteral`: optionally signed unsigned decimal. -/
def lexStrDecimal (l : List Char) : Option (ℚ × List Char) :=
  match l with
  | '+' :: cs => lexUnsignedDec cs
  | '-' :: cs =>
    match lexUnsignedDec cs with
    | some (q, r) => some (-q, r)
    | none => none
  | _ => lexUnsignedDec l

/-- Hexadecimal digit value. -/
def hexDig (c : Char) : Option Nat :=
  if c.isDigit then some (digToNat c)
  else if 'a' ≤ c ∧ c ≤ 'f' then some (c.toNat - 87)
  else if 'A' ≤ c ∧ c ≤ 'F' then some (c.toNat - 55)
  else none

/-- Octal digit value. -/
def octDig (c : Char) : Option Nat :=
  if '0' ≤ c ∧ c ≤ '7' then some (digToNat c) else none

/-- Binary digit value. -/
def binDig (c : Char) : Option Nat :=
  if c = '0' then some 0 else if c = '1' then some 1 else none

/-- Consume a whole string of digits in a given radix; `none` on any
non-digit. -/
def lexRadix (radix : Nat) (digOf : Char → Option Nat) : List Char → Nat → Option Nat
  | [], v => some v
  | c :: cs, v =>
    match digOf c with
    | some d => lexRadix radix digOf cs (v * radix + d)
    | none => none

/-- A decimal literal that must consume the whole input. -/
def finishDecimal (t : List Char) : Option ℚ :=
  match lexStrDecimal t with
  | some (q, []) => some q
  | _ => none

/-- A whole (already trimmed, nonempty) `StrNumericLiteral`. -/
def jsNumberCore (t : List Char) : Option ℚ :=
  match t with
  | '0' :: c :: cs =>
    if c = 'x' ∨ c = 'X' then
      if cs = [] then none else (lexRadix 16 hexDig cs 0).map (fun n => (n : ℚ))
    else if c = 'o' ∨ c = 'O' then
      if cs = [] then none else (lexRadix 8 octDig cs 0).map (fun n => (n : ℚ))
    else if c = 'b' ∨ c = 'B' then
      if cs = [] then none else (lexRadix 2 binDig cs 0).map (fun n => (n : ℚ))
    else finishDecimal t
  | _ => finishDecimal t

/-- The JS `Number(string)` conversion (finite results): trims whitespace,
maps the empty string to `0`, otherwise parses a complete numeric literal;
`none` models `NaN`. -/
def jsNumber (l : List Char) : Option ℚ :=
  let t := trimWs l
  if t = [] then some 0 else jsNumberCore t

/-- The character substitution performed by `.replace(/,/g, ".")`. -/
def commaToDot (c : Char) : Char := if c = ',' then '.' else c

/-- `toNum(s?: string)` from the source:
`Number((s ?? "").toString().replace(/,/g, "."))`, with `NaN` mapped to 0. -/
def toNum (s : Option String) : ℚ :=
  match jsNumber ((s.getD "").data.map commaToDot) with
  | some q => q
  | none => 0

/-- `fmt1(n)` from the source: `n.toFixed(1)`.  `toFixed` picks the integer
`m` with `m / 10` closest to `n`, ties toward `+∞`, i.e. `m = ⌊10n + 1/2⌋`
(modelled on the exact rational value). -/
def fmt1 (q : ℚ) : String :=
  let m : ℤ := Rat.floor (q * 10 + 1 / 2)
  if m < 0 then "-" ++ toString (m.natAbs / 10) ++ "." ++ toString (m.natAbs % 10)
  else toString (m.toNat / 10) ++ "." ++ toString (m.toNat % 10)

/-! ## Data model -/

/-- The `type` union of an assessment item:
`"Assignment" | "Exam" | "Quiz" | "Other"`. -/
inductive ItemType
  | Assignment
  | Exam
  | Quiz
  | Other
deriving DecidableEq

/-- The `Assessment` record from the source.  Optional fields are `Option`s;
`weight` and `grade` are stored as raw strings, re-parsed on every use. -/
structure Assessment where
  id : String
  name : String
  weight : String
  grade : Option String := none
  type : Option ItemType := none
  hurdle : Option Bool := none
  dueDateISO : Option String := none
deriving DecidableEq

/-- The grade-presence test used throughout the source:
`i.grade !== undefined && i.grade !== ""`. -/
def hasGrade (i : Assessment) : Bool :=
  match i.grade with
  | some g => decide (g ≠ "")
  | none => false

/-- An item's clamped parsed weight, `clamp(toNum(i.weight))`. -/
def itemW (i : Assessment) : ℚ := clamp (toNum (some i.weight)) 0 100

/-- An item's clamped parsed grade, `clamp(toNum(i.grade))`. -/
def itemG (i : Assessment) : ℚ := clamp (toNum i.grade) 0 100

/-- JS `Array.prototype.findIndex`, with the not-found result `-1` modelled
as `none`. -/
def findIndex {α : Type} (p : α → Bool) : List α → Option Nat
  | [] => none
  | a :: l => if p a then some 0 else (findIndex p l).map (· + 1)

/-- The `x.type === "Exam"` test. -/
def isExamB (i : Assessment) : Bool := decide (i.type = some ItemType.Exam)

/-- The truthiness test `i.hurdle` (an absent flag is falsy). -/
def isHurdle (i : Assessment) : Bool := i.hurdle.getD false

/-! ## Weighted-contribution aggregator (the `useMemo` loop) -/

/-- One step of the aggregation loop over `(totalWeight, completedWeight,
contributions)`. -/
def aggStep (acc : ℚ × ℚ × ℚ) (i : Assessment) : ℚ × ℚ × ℚ :=
  let w := clamp (toNum (some i.weight)) 0 100
  let total := acc.1 + w
  if hasGrade i then
    let g := clamp (toNum i.grade) 0 100
    (total, acc.2.1 + w, acc.2.2 + w * g / 100)
  else
    (total, acc.2.1, acc.2.2)

/-- The aggregation loop: `(totalWeight, completedWeight, contributions)`. -/
def agg (items : List Assessment) : ℚ × ℚ × ℚ := items.foldl aggStep (0, 0, 0)

def totalWeight (items : List Assessment) : ℚ := (agg items).1

def completedWeight (items : List Assessment) : ℚ := (agg items).2.1

/-- `sumContribution` (the raw, unclamped accumulated contribution). -/
def sumContribution (items : List Assessment) : ℚ := (agg items).2.2

/-- `remainingWeight = clamp(100 - completedWeight, 0, 100)`. -/
def remainingWeight (items : List Assessment) : ℚ :=
  clamp (100 - completedWeight items) 0 100

/-- `accumulated = clamp(sumContribution, 0, 100)`. -/
def accumulated (items : List Assessment) : ℚ := clamp (sumContribution items) 0 100

def finalMin (items : List Assessment) : ℚ := accumulated items

def finalMax (items : List Assessment) : ℚ :=
  clamp (accumulated items + remainingWeight items) 0 100

/-! ## Hurdle evaluator -/

/-- The per-hurdle failure predicate: grade present and clamped value
below 50. -/
def hurdleFailedB (i : Assessment) : Bool :=
  if hasGrade i then decide (clamp (toNum i.grade) 0 100 < 50) else false

def anyHurdleFailed (items : List Assessment) : Bool :=
  (items.filter isHurdle).any hurdleFailedB

def anyHurdleMissing (items : List Assessment) : Bool :=
  (items.filter isHurdle).any (fun i => !hasGrade i)

/-! ## Pass-requirement solver -/

/-- `requiredOnRemaining`: defined only when `remainingWeight > 0`. -/
def requiredOnRemaining (items : List Assessment) (targetPass : ℚ) : Option ℚ :=
  if 0 < remainingWeight items then
    some ((targetPass - sumContribution items) / remainingWeight items * 100)
  else none

/-- `requiredDisplay = requiredOnRemaining != null ?
Math.max(0, Math.min(100, requiredOnRemaining)) : null`. -/
def requiredDisplay (items : List Assessment) (targetPass : ℚ) : Option ℚ :=
  match requiredOnRemaining items targetPass with
  | some r => some (jsMax 0 (jsMin 100 r))
  | none => none

/-- `finalGradeNumeric = finalSubjectGrade.trim() !== "" ?
clamp(toNum(finalSubjectGrade), 0, 100) : null`. -/
def finalGradeNumeric (finalSubjectGrade : String) : Option ℚ :=
  if jsTrim finalSubjectGrade ≠ "" then
    some (clamp (toNum (some finalSubjectGrade)) 0 100)
  else none

/-! ## Exam back-solver -/

/-- `examIdx = items.findIndex(x => x.type === "Exam")`. -/
def examIdx (items : List Assessment) : Option Nat := findIndex isExamB items

/-- `examItem = examIdx >= 0 ? items[examIdx] : null`. -/
def examItem (items : List Assessment) : Option Assessment :=
  match examIdx items with
  | some i => items.get? i
  | none => none

/-- `examWeight = examItem ? clamp(toNum(examItem.weight), 0, 100) : 0`. -/
def examWeight (items : List Assessment) : ℚ :=
  match examItem items with
  | some e => clamp (toNum (some e.weight)) 0 100
  | none => 0

/-- One step of the non-exam loop over `(otherContribution, otherAnyMissing)`:
exam-typed items are skipped, graded items add `w * g / 100`, ungraded items
with `w > 0` set the missing flag. -/
def otherStep (acc : ℚ × Bool) (i : Assessment) : ℚ × Bool :=
  if isExamB i then acc
  else
    let w := clamp (toNum (some i.weight)) 0 100
    if hasGrade i then
      let g := clamp (toNum i.grade) 0 100
      (acc.1 + w * g / 100, acc.2)
    else if 0 < w then (acc.1, true)
    else acc

def otherAgg (items : List Assessment) : ℚ × Bool := items.foldl otherStep (0, false)

def otherContribution (items : List Assessment) : ℚ := (otherAgg items).1

def otherAnyMissing (items : List Assessment) : Bool := (otherAgg items).2

/-- `canAutoCalcExam = finalGradeNumeric != null && examItem != null &&
examWeight > 0 && !otherAnyMissing`. -/
def canAutoCalcExam (items : List Assessment) (finalSubjectGrade : String) : Bool :=
  (finalGradeNumeric finalSubjectGrade).isSome && (examItem items).isSome &&
    decide (0 < examWeight items) && !otherAnyMissing items

/-- `requiredExamToHitFinal`: the back-solved exam grade, clamped into
`[0, 100]`; `null` when not solvable. -/
def requiredExamToHitFinal (items : List Assessment) (finalSubjectGrade : String) :
    Option ℚ :=
  if canAutoCalcExam items finalSubjectGrade then
    (finalGradeNumeric finalSubjectGrade).map fun f =>
      clamp ((f - otherContribution items) / examWeight items * 100) 0 100
  else none

/-! ## Outcome classifier (the narrative branch in the JSX) -/

/-- `hasRemaining = remainingWeight > 0.01`. -/
def hasRemaining (items : List Assessment) : Bool :=
  decide (1 / 100 < remainingWeight items)

/-- `alreadyPassed = !anyHurdleFailed && !anyHurdleMissing &&
finalMin >= targetPass`. -/
def alreadyPassed (items : List Assessment) (targetPass : ℚ) : Bool :=
  !anyHurdleFailed items && !anyHurdleMissing items &&
    decide (targetPass ≤ finalMin items)

/-- `impossibleToPassByMarks = finalMax < targetPass && hasRemaining`. -/
def impossibleToPassByMarks (items : List Assessment) (targetPass : ℚ) : Bool :=
  decide (finalMax items < targetPass) && hasRemaining items

/-- The five narrative outcomes of the "What do I need to pass?" card,
with the figures each one reports. -/
inductive Outcome
  | HurdleBlocked
  | Impossible
  | Finalized (result : ℚ)
  | AlreadyPassed
  | NeedsAverage (required : Option ℚ)
deriving DecidableEq

/-- The chained conditional rendering the outcome card: hurdle failure,
impossibility, no remaining weight, already passed, otherwise the needed
average. -/
def classify (items : List Assessment) (targetPass : ℚ) : Outcome :=
  if anyHurdleFailed items then Outcome.HurdleBlocked
  else if impossibleToPassByMarks items targetPass then Outcome.Impossible
  else if !hasRemaining items then Outcome.Finalized (finalMin items)
  else if alreadyPassed items targetPass then Outcome.AlreadyPassed
  else Outcome.NeedsAverage (requiredDisplay items targetPass)

/-! ## State mutations and effects -/

/-- Per-subject planner state. -/
structure PlannerState where
  items : List Assessment
  targetPass : ℚ
  finalSubjectGrade : String
  autoCalcExamFromFinal : Bool
deriving DecidableEq

/-- The `setItems` body shared by `toggleAutoCalc` (when disabling) and the
blank-final-grade effect: clear the first Exam item's grade if it is
non-empty. -/
def clearFirstExamGrade (prev : List Assessment) : List Assessment :=
  match findIndex isExamB prev with
  | none => prev
  | some idx =>
    match prev.get? idx with
    | none => prev
    | some exam =>
      if exam.grade.getD "" = "" then prev
      else prev.set idx { exam with grade := some "" }

/-- `toggleAutoCalc`: disabling clears the first Exam grade; enabling only
flips the flag. -/
def toggleAutoCalc (st : PlannerState) : PlannerState :=
  if st.autoCalcExamFromFinal then
    { st with autoCalcExamFromFinal := false, items := clearFirstExamGrade st.items }
  else
    { st with autoCalcExamFromFinal := true }

/-- The effect at lines 595–610: when auto-solve is enabled and the manual
final grade is blank after trimming, clear the first Exam item's grade. -/
def reconcileBlankFinal (enabled : Bool) (finalSubjectGrade : String)
    (items : List Assessment) : List Assessment :=
  if !enabled then items
  else if jsTrim finalSubjectGrade ≠ "" then items
  else clearFirstExamGrade items

/-- The auto-solve write-back effect at lines 612–633: when enabled and
solvable, write `fmt1` of the required exam grade into the Exam item unless
the stored grade already matches within `0.05`. -/
def autoSolveWriteBack (enabled : Bool) (items : List Assessment)
    (finalSubjectGrade : String) : List Assessment :=
  if !enabled then items
  else if !canAutoCalcExam items finalSubjectGrade then items
  else
    match requiredExamToHitFinal items finalSubjectGrade with
    | none => items
    | some req =>
      match examIdx items with
      | none => items
      | some idx =>
        match items.get? idx with
        | none => items
        | some current =>
          let currentGrade := current.grade.getD ""
          let currentNum : Option ℚ :=
            if currentGrade = "" then none
            else some (clamp (toNum (some currentGrade)) 0 100)
          let nextNum := clamp req 0 100
          match currentNum with
          | some c =>
            if approxEqual c nextNum (1 / 20) then items
            else items.set idx { current with grade := some (fmt1 nextNum) }
          | none => items.set idx { current with grade := some (fmt1 nextNum) }

/-! ## Spec-side definitions (for comparison with the code) -/

/-- The lenient parser as §4.1 of the specification words it: strip all
characters except digits, comma and dot; treat the comma as the decimal
separator when no dot is present; parse; return 0 if unparseable.  Stated
only to compare against the source's `toNum`. -/
def parseLenientSpec (text : String) : ℚ :=
  let stripped := text.data.filter fun c => c.isDigit || c = ',' || c = '.'
  let replaced := if stripped.contains '.' then stripped else stripped.map commaToDot
  match jsNumber replaced with
  | some q => q
  | none => 0

/-- Spec-side condition: the first Exam-typed item exists and has clamped
parsed weight strictly greater than 0. -/
def firstExamHasPosWeight (items : List Assessment) : Bool :=
  match items.find? isExamB with
  | some a => decide (0 < clamp (toNum (some a.weight)) 0 100)
  | none => false

/-! ## Concrete item lists used by witnesses and counterexamples -/

/-- The spec's round-trip example: `[{Assignment, w=50, g=80},
{Exam, w=50, g=?}]`. -/
def c1Items : List Assessment :=
  [ { id := "a1", name := "Assignment 1", weight := "50", grade := some "80",
      type := some ItemType.Assignment },
    { id := "exam", name := "Exam", weight := "50", grade := some "",
      type := some ItemType.Exam } ]

/-- A single graded item of weight `99.995`: its remaining weight `0.005`
lies strictly between `0` and the classifier's `0.01` threshold. -/
def c2Items : List Assessment :=
  [ { id := "a1", name := "Task", weight := "99.995", grade := some "50",
      type := some ItemType.Assignment } ]

/-- The spec's "Impossible" scenario B: `[{w=80, g=30}, {w=20, g=?}]`. -/
def c2bItems : List Assessment :=
  [ { id := "a1", name := "Task 1", weight := "80", grade := some "30",
      type := some ItemType.Assignment },
    { id := "a2", name := "Task 2", weight := "20", grade := some "",
      type := some ItemType.Assignment } ]

/-- The exam item stored in `c3Items`. -/
def c3Exam : Assessment :=
  { id := "exam", name := "Exam", weight := "50", grade := some "60.0",
    type := some ItemType.Exam }

/-- Like `c1Items` but with the Exam grade already solved to `"60.0"`. -/
def c3Items : List Assessment :=
  [ { id := "a1", name := "Assignment 1", weight := "50", grade := some "80",
      type := some ItemType.Assignment },
    c3Exam ]

/-- Two Exam-typed items: the back-solver only looks for the first. -/
def c4Items : List Assessment :=
  [ { id := "e1", name := "Exam A", weight := "50", grade := some "",
      type := some ItemType.Exam },
    { id := "e2", name := "Exam B", weight := "50", grade := some "",
      type := some ItemType.Exam } ]

/-- A fully graded single item (`remainingWeight = 0`). -/
def c9FullItems : List Assessment :=
  [ { id := "a1", name := "Task", weight := "100", grade := some "80",
      type := some ItemType.Assignment } ]

/-- A single graded item of weight `99.99`: remaining weight is exactly
`0.01` (nonzero, within the `≤ 0.01` tolerance) while the grade of 0 keeps
`finalMin` and `finalMax` small and distinct. -/
def c9Items : List Assessment :=
  [ { id := "a1", name := "Task", weight := "99.99", grade := some "0",
      type := some ItemType.Assignment } ]

/-- A planner state with auto-solve enabled and a solved exam grade. -/
def c8State : PlannerState :=
  { items := c3Items, targetPass := 50, finalSubjectGrade := "70",
    autoCalcExamFromFinal := true }

/-- `c3Exam` with its grade cleared. -/
def c3ExamCleared : Assessment :=
  { id := "exam", name := "Exam", weight := "50", grade := some "",
    type := some ItemType.Exam }

/-! ## Helper lemmas -/

theorem jsMax_eq_max (a b : ℚ) : jsMax a b = max a b := by
  unfold jsMax
  split_ifs with h
  · exact (max_eq_right h).symm
  · exact (max_eq_left (le_of_not_le h)).symm

theorem jsMin_eq_min (a b : ℚ) : jsMin a b = min a b := by
  unfold jsMin
  split_ifs with h
  · exact (min_eq_left h).symm
  · exact (min_eq_right (le_of_not_le h)).symm

theorem clamp_eq_max_min (n lo hi : ℚ) : clamp n lo hi = max lo (min hi n) := by
  rw [clamp, jsMax_eq_max, jsMin_eq_min]

theorem clamp_nonneg (n : ℚ) : 0 ≤ clamp n 0 100 := by
  rw [clamp_eq_max_min]; exact le_max_left 0 _

theorem clamp_le_hundred (n : ℚ) : clamp n 0 100 ≤ 100 := by
  rw [clamp_eq_max_min]
  exact max_le (by norm_num) (min_le_left _ _)

theorem clamp_eq_self {n : ℚ} (h0 : 0 ≤ n) (h1 : n ≤ 100) : clamp n 0 100 = n := by
  rw [clamp_eq_max_min, min_eq_right h1, max_eq_right h0]

theorem itemW_nonneg (i : Assessment) : 0 ≤ itemW i := clamp_nonneg _

theorem itemG_nonneg (i : Assessment) : 0 ≤ itemG i := clamp_nonneg _

theorem itemG_le_hundred (i : Assessment) : itemG i ≤ 100 := clamp_le_hundred _

/-- The contribution of one graded item never exceeds its weight. -/
theorem contrib_le_itemW (i : Assessment) : itemW i * itemG i / 100 ≤ itemW i := by
  have h1 : itemW i * itemG i ≤ itemW i * 100 :=
    mul_le_mul_of_nonneg_left (itemG_le_hundred i) (itemW_nonneg i)
  calc itemW i * itemG i / 100 ≤ itemW i * 100 / 100 := by linarith
    _ = itemW i := by ring

theorem contrib_nonneg (i : Assessment) : 0 ≤ itemW i * itemG i / 100 := by
  have := mul_nonneg (itemW_nonneg i) (itemG_nonneg i)
  positivity

/-- Closed form of the aggregation loop. -/
theorem foldl_aggStep (l : List Assessment) (acc : ℚ × ℚ × ℚ) :
    List.foldl aggStep acc l =
      (acc.1 + (l.map itemW).sum,
       acc.2.1 + ((l.filter hasGrade).map itemW).sum,
       acc.2.2 + ((l.filter hasGrade).map fun i => itemW i * itemG i / 100).sum) := by
  induction l generalizing acc with
  | nil => simp
  | cons i rest ih =>
    rw [List.foldl_cons, ih]
    cases hg : hasGrade i <;>
      simp only [aggStep, hg, List.filter_cons, List.map_cons, List.sum_cons,
        if_true, if_false, Bool.false_eq_true, Bool.true_eq_false, ite_true,
        ite_false, itemW, itemG, Prod.mk.injEq] <;>
      constructor <;> try constructor
    all_goals ring

theorem totalWeight_eq (items : List Assessment) :
    totalWeight items = (items.map itemW).sum := by
  rw [totalWeight, agg, foldl_aggStep]; simp

theorem completedWeight_eq (items : List Assessment) :
    completedWeight items = ((items.filter hasGrade).map itemW).sum := by
  rw [completedWeight, agg, foldl_aggStep]; simp

theorem sumContribution_eq (items : List Assessment) :
    sumContribution items =
      ((items.filter hasGrade).map fun i => itemW i * itemG i / 100).sum := by
  rw [sumContribution, agg, foldl_aggStep]; simp

theorem sum_map_nonneg {α : Type} (l : List α) (f : α → ℚ)
    (h : ∀ a ∈ l, 0 ≤ f a) : 0 ≤ (l.map f).sum := by
  induction l with
  | nil => simp
  | cons a rest ih =>
    simp only [List.map_cons, List.sum_cons]
    have h1 := h a (by simp)
    have h2 := ih fun x hx => h x (by simp [hx])
    linarith

theorem sum_map_le_sum_map {α : Type} (l : List α) (f g : α → ℚ)
    (h : ∀ a ∈ l, f a ≤ g a) : (l.map f).sum ≤ (l.map g).sum := by
  induction l with
  | nil => simp
  | cons a rest ih =>
    simp only [List.map_cons, List.sum_cons]
    have h1 := h a (by simp)
    have h2 := ih fun x hx => h x (by simp [hx])
    linarith

theorem completedWeight_nonneg (items : List Assessment) : 0 ≤ completedWeight items := by
  rw [completedWeight_eq]
  exact sum_map_nonneg _ _ fun a _ => itemW_nonneg a

theorem sumContribution_nonneg (items : List Assessment) : 0 ≤ sumContribution items := by
  rw [sumContribution_eq]
  exact sum_map_nonneg _ _ fun a _ => contrib_nonneg a

theorem sumContribution_le_completedWeight (items : List Assessment) :
    sumContribution items ≤ completedWeight items := by
  rw [sumContribution_eq, completedWeight_eq]
  exact sum_map_le_sum_map _ _ _ fun a _ => contrib_le_itemW a

theorem remainingWeight_nonneg (items : List Assessment) : 0 ≤ remainingWeight items :=
  clamp_nonneg _

/-! ## Claim C5: the weighted-contribution aggregator -/

/-- C5: for every item list the aggregator adds each item's clamped parsed
weight to `totalWeight` unconditionally; it adds that weight to
`completedWeight` and `weight * clamp(grade) / 100` to the accumulated
contribution exactly for the items whose grade string is present and
non-empty; and `remainingWeight` is `clamp(100 - completedWeight, 0, 100)`,
anchored to the fixed 100-point scale — it depends only on
`completedWeight`, never on `totalWeight`. -/
theorem aggregator_spec (items : List Assessment) :
    totalWeight items = (items.map itemW).sum ∧
    completedWeight items = ((items.filter hasGrade).map itemW).sum ∧
    sumContribution items =
      ((items.filter hasGrade).map fun i => itemW i * itemG i / 100).sum ∧
    remainingWeight items = clamp (100 - completedWeight items) 0 100 ∧
    ∀ other : List Assessment, completedWeight items = completedWeight other →
      remainingWeight items = remainingWeight other := by
  refine ⟨totalWeight_eq items, completedWeight_eq items, sumContribution_eq items,
    rfl, fun other h => ?_⟩
  rw [remainingWeight, remainingWeight, h]

set_option maxHeartbeats 2000000 in
/-- Witness for C5: two lists with equal completed weight but different
total weight (50 versus 80) get the same remaining weight, because the
computation is anchored to 100 rather than to `totalWeight`. -/
theorem aggregator_spec_witness :
    remainingWeight c1Items =
      remainingWeight (c1Items ++ [{ id := "x", name := "Extra", weight := "30" }]) :=
  (aggregator_spec c1Items).2.2.2.2 _ (by with_unfolding_all decide)

/-! ## Claim C7: the pass-requirement solver -/

/-- C7: the pass-requirement solver returns
`(targetPass - sumContribution) / remainingWeight * 100` — built from the
raw, unclamped accumulated contribution — whenever `remainingWeight > 0`;
it returns `null` exactly when `remainingWeight` is zero; and the value is
clamped into `[0, 100]` only in the separately-derived display value. -/
theorem requiredOnRemaining_spec (items : List Assessment) (t : ℚ) :
    (0 < remainingWeight items →
      requiredOnRemaining items t =
        some ((t - sumContribution items) / remainingWeight items * 100)) ∧
    (requiredOnRemaining items t = none ↔ remainingWeight items = 0) ∧
    requiredDisplay items t =
      (requiredOnRemaining items t).map fun r => jsMax 0 (jsMin 100 r) := by
  refine ⟨fun h => ?_, ⟨fun h => ?_, fun h => ?_⟩, ?_⟩
  · simp [requiredOnRemaining, h]
  · by_contra hne
    have hpos : 0 < remainingWeight items :=
      lt_of_le_of_ne (remainingWeight_nonneg items) (Ne.symm hne)
    simp [requiredOnRemaining, hpos] at h
  · have hnot : ¬ 0 < remainingWeight items := by rw [h]; exact lt_irrefl 0
    simp [requiredOnRemaining, hnot]
  · cases h : requiredOnRemaining items t with
    | none => unfold requiredDisplay; rw [h]; rfl
    | some r => unfold requiredDisplay; rw [h]; rfl

/-- Witness for C7: on the spec's round-trip list with target 70 the
remaining weight is positive and the solver's formula applies. -/
theorem requiredOnRemaining_spec_witness :
    requiredOnRemaining c1Items 70 =
      some ((70 - sumContribution c1Items) / remainingWeight c1Items * 100) :=
  (requiredOnRemaining_spec c1Items 70).1 (by with_unfolding_all decide)

/-! ## Claim C9: when do the two bounds coincide? -/

/-- C9 counterexample: for a single item of weight `99.99` graded 0, the
remaining weight `0.01` is within the spec's `≈ 0` tolerance (`≤ 0.01`) and
nonzero, yet `finalMin ≠ finalMax` — so "`finalMin == finalMax` iff
`remainingWeight ≈ 0`" fails when `≈ 0` is read as the spec's `≤ 0.01`. -/
theorem finalMin_eq_finalMax_counterexample :
    remainingWeight c9Items ≤ 1 / 100 ∧ remainingWeight c9Items ≠ 0 ∧
      finalMin c9Items ≠ finalMax c9Items := by
  refine ⟨by with_unfolding_all decide, by with_unfolding_all decide,
    by with_unfolding_all decide⟩

/-- C9 (amended): `finalMin = finalMax` holds if and only if
`remainingWeight` is exactly zero (not merely `≤ 0.01`). -/
theorem finalMin_eq_finalMax_iff (items : List Assessment) :
    finalMin items = finalMax items ↔ remainingWeight items = 0 := by
  have hsc0 : 0 ≤ sumContribution items := sumContribution_nonneg items
  have hsccw : sumContribution items ≤ completedWeight items :=
    sumContribution_le_completedWeight items
  have hcw0 : 0 ≤ completedWeight items := completedWeight_nonneg items
  have hacc0 : 0 ≤ accumulated items := clamp_nonneg _
  have hacc100 : accumulated items ≤ 100 := clamp_le_hundred _
  constructor
  · intro heq
    by_contra hne
    have hrw : 0 < remainingWeight items :=
      lt_of_le_of_ne (remainingWeight_nonneg items) (Ne.symm hne)
    have hcwlt : completedWeight items < 100 := by
      by_contra hge
      push_neg at hge
      have : remainingWeight items = 0 := by
        rw [remainingWeight, clamp_eq_max_min]
        exact max_eq_left (le_trans (min_le_right _ _) (by linarith))
      exact hne this
    have hrweq : remainingWeight items = 100 - completedWeight items := by
      rw [remainingWeight, clamp_eq_max_min, min_eq_right (by linarith),
        max_eq_right (by linarith)]
    have hscl : sumContribution items < 100 := lt_of_le_of_lt hsccw hcwlt
    have hacc : accumulated items = sumContribution items := by
      rw [accumulated, clamp_eq_self hsc0 (le_of_lt hscl)]
    have hsum : accumulated items + remainingWeight items ≤ 100 := by
      rw [hacc, hrweq]; linarith
    have hmax : finalMax items = accumulated items + remainingWeight items := by
      rw [finalMax, clamp_eq_self (by linarith) hsum]
    rw [finalMin, hmax] at heq
    have : remainingWeight items = 0 := by linarith
    exact hne this
  · intro h0
    rw [finalMax, h0, add_zero, clamp_eq_self hacc0 hacc100]
    rfl

/-- Witness for C9 (amended): a fully graded list has `remainingWeight = 0`
and therefore coinciding bounds. -/
theorem finalMin_eq_finalMax_iff_witness :
    finalMin c9FullItems = finalMax c9FullItems :=
  (finalMin_eq_finalMax_iff c9FullItems).mpr (by with_unfolding_all decide)

/-! ## Claim C2: the outcome classifier -/

/-- C2 counterexample: with a single item of weight `99.995` graded 50 and
target 70, the claim's condition (2) — `finalMax < target` and
`remainingWeight > 0` — holds and no hurdle has failed, yet the classifier
does not return Impossible (the code's condition is `remainingWeight >
0.01`, and here the remaining weight is `0.005`). -/
theorem classify_priority_counterexample :
    finalMax c2Items < 70 ∧ 0 < remainingWeight c2Items ∧
      anyHurdleFailed c2Items = false ∧
      classify c2Items 70 ≠ Outcome.Impossible := by
  refine ⟨by with_unfolding_all decide, by with_unfolding_all decide,
    by with_unfolding_all decide, by with_unfolding_all decide⟩

/-- C2 (amended): the outcome classifier selects exactly one of the five
outcomes in first-match-wins priority order: (1) a failed hurdle gives
HurdleBlocked; (2) `finalMax < targetPassPercent` with `remainingWeight >
0.01` (not merely `> 0`) gives Impossible; (3) `remainingWeight ≤ 0.01`
gives Finalized reporting `finalMin`; (4) no failed hurdle, no missing
hurdle and `finalMin ≥ targetPassPercent` gives AlreadyPassed; (5)
otherwise NeedsAverage reporting the clamped required average. -/
theorem classify_priority (items : List Assessment) (t : ℚ) :
    (anyHurdleFailed items = true → classify items t = Outcome.HurdleBlocked) ∧
    (anyHurdleFailed items = false → finalMax items < t →
      1 / 100 < remainingWeight items → classify items t = Outcome.Impossible) ∧
    (anyHurdleFailed items = false → remainingWeight items ≤ 1 / 100 →
      classify items t = Outcome.Finalized (finalMin items)) ∧
    (anyHurdleFailed items = false →
      ¬(finalMax items < t ∧ 1 / 100 < remainingWeight items) →
      1 / 100 < remainingWeight items → anyHurdleMissing items = false →
      t ≤ finalMin items → classify items t = Outcome.AlreadyPassed) ∧
    (anyHurdleFailed items = false →
      ¬(finalMax items < t ∧ 1 / 100 < remainingWeight items) →
      1 / 100 < remainingWeight items →
      ¬(anyHurdleMissing items = false ∧ t ≤ finalMin items) →
      classify items t = Outcome.NeedsAverage (requiredDisplay items t)) := by
  refine ⟨fun h1 => ?_, fun h1 h2 h3 => ?_, fun h1 h2 => ?_,
    fun h1 h2 h3 h4 h5 => ?_, fun h1 h2 h3 h4 => ?_⟩
  · simp [classify, h1]
  · have h3i : (100:ℚ)⁻¹ < remainingWeight items := by rwa [one_div] at h3
    have himp : impossibleToPassByMarks items t = true := by
      simp [impossibleToPassByMarks, hasRemaining, h2, h3i]
    simp [classify, h1, himp]
  · have h2i : remainingWeight items ≤ (100:ℚ)⁻¹ := by rwa [one_div] at h2
    have hnr : ¬ ((100:ℚ)⁻¹ < remainingWeight items) := not_lt.mpr h2i
    have hrem : hasRemaining items = false := by simp [hasRemaining, hnr]
    have himp : impossibleToPassByMarks items t = false := by
      simp [impossibleToPassByMarks, hrem]
    simp [classify, h1, himp, hrem]
  · have hni : ¬ finalMax items < t := fun hc => h2 ⟨hc, h3⟩
    have h3i : (100:ℚ)⁻¹ < remainingWeight items := by rwa [one_div] at h3
    have hrem : hasRemaining items = true := by simp [hasRemaining, h3i]
    have himp : impossibleToPassByMarks items t = false := by
      simp [impossibleToPassByMarks, hni]
    have hap : alreadyPassed items t = true := by
      simp [alreadyPassed, h1, h4, h5]
    simp [classify, h1, himp, hrem, hap]
  · have hni : ¬ finalMax items < t := fun hc => h2 ⟨hc, h3⟩
    have h3i : (100:ℚ)⁻¹ < remainingWeight items := by rwa [one_div] at h3
    have hrem : hasRemaining items = true := by simp [hasRemaining, h3i]
    have himp : impossibleToPassByMarks items t = false := by
      simp [impossibleToPassByMarks, hni]
    have hap : alreadyPassed items t = false := by
      cases hm : anyHurdleMissing items with
      | true => simp [alreadyPassed, hm]
      | false =>
        have hnf : ¬ t ≤ finalMin items := fun hc => h4 ⟨hm, hc⟩
        simp [alreadyPassed, hm, hnf]
    simp [classify, h1, himp, hrem, hap]

/-- Witness for C2 (amended): the spec's scenario B — `[{w=80, g=30},
{w=20, g=?}]` with target 70 — classifies as Impossible. -/
theorem classify_priority_witness : classify c2bItems 70 = Outcome.Impossible :=
  (classify_priority c2bItems 70).2.1 (by with_unfolding_all decide)
    (by with_unfolding_all decide) (by with_unfolding_all decide)

/-! ## Lemmas about the non-exam loop and the exam lookup -/

/-- Closed form of the non-exam loop. -/
theorem foldl_otherStep (l : List Assessment) (acc : ℚ × Bool) :
    List.foldl otherStep acc l =
      (acc.1 + ((l.filter fun i => !isExamB i && hasGrade i).map
          fun i => itemW i * itemG i / 100).sum,
       acc.2 || l.any fun i => !isExamB i && !hasGrade i && decide (0 < itemW i)) := by
  induction l generalizing acc with
  | nil => simp
  | cons i rest ih =>
    rw [List.foldl_cons, ih]
    by_cases he : isExamB i = true
    · simp [otherStep, he, List.filter_cons, List.any_cons]
    · have he2 : isExamB i = false := by revert he; cases isExamB i <;> simp
      by_cases hg : hasGrade i = true
      · simp only [otherStep, he2, hg, List.filter_cons, List.any_cons,
          Bool.not_false, Bool.not_true, Bool.true_and, Bool.false_and,
          Bool.false_or, if_true, if_false, Bool.false_eq_true, ite_true,
          ite_false, List.map_cons, List.sum_cons, itemW, itemG, Prod.mk.injEq]
        constructor
        · ring
        · trivial
      · have hg2 : hasGrade i = false := by revert hg; cases hasGrade i <;> simp
        by_cases hw : 0 < clamp (toNum (some i.weight)) 0 100
        · simp only [otherStep, he2, hg2, List.filter_cons, List.any_cons,
            Bool.not_false, Bool.not_true, Bool.true_and, Bool.false_and,
            Bool.and_false, if_true, if_false, Bool.false_eq_true, ite_true,
            ite_false, itemW, itemG, hw, Bool.and_true,
            Bool.or_true, Bool.true_or, Prod.mk.injEq]
          simp [hw]
        · simp only [otherStep, he2, hg2, List.filter_cons, List.any_cons,
            Bool.not_false, Bool.not_true, Bool.true_and, Bool.false_and,
            if_true, if_false, Bool.false_eq_true, ite_true, ite_false,
            itemW, itemG, hw, Prod.mk.injEq]
          simp [hw]

theorem otherContribution_eq (items : List Assessment) :
    otherContribution items =
      ((items.filter fun i => !isExamB i && hasGrade i).map
        fun i => itemW i * itemG i / 100).sum := by
  rw [otherContribution, otherAgg, foldl_otherStep]; simp

theorem otherAnyMissing_eq (items : List Assessment) :
    otherAnyMissing items =
      items.any fun i => !isExamB i && !hasGrade i && decide (0 < itemW i) := by
  rw [otherAnyMissing, otherAgg, foldl_otherStep]; simp

/-- When no non-exam grade is missing, ungraded non-exam items have zero
weight. -/
theorem no_missing_pointwise (items : List Assessment)
    (h : otherAnyMissing items = false) :
    ∀ i ∈ items, isExamB i = false → hasGrade i = false → itemW i = 0 := by
  rw [otherAnyMissing_eq] at h
  intro i hi hex hgr
  have h2 := List.any_eq_false.mp h i hi
  simp only [hex, hgr, Bool.not_false, Bool.true_and, Bool.and_eq_true,
    decide_eq_true_eq] at h2
  exact le_antisymm (not_lt.mp h2) (itemW_nonneg i)

/-- When no non-exam grade is missing, the loop's contribution equals the
sum over all non-exam items (ungraded ones contribute zero weight). -/
theorem otherContribution_of_no_missing (items : List Assessment)
    (h : otherAnyMissing items = false) :
    otherContribution items =
      ((items.filter fun i => !isExamB i).map fun i => itemW i * itemG i / 100).sum := by
  rw [otherContribution_eq]
  have hp := no_missing_pointwise items h
  clear h
  induction items with
  | nil => rfl
  | cons i rest ih =>
    have hrest := fun x hx => hp x (List.mem_cons_of_mem i hx)
    by_cases he : isExamB i = true
    · simp only [List.filter_cons, he, Bool.not_true, Bool.false_and, if_false,
        Bool.false_eq_true, ite_false]
      exact ih hrest
    · have he2 : isExamB i = false := by revert he; cases isExamB i <;> simp
      by_cases hg : hasGrade i = true
      · simp only [List.filter_cons, he2, hg, Bool.not_false, Bool.true_and,
          if_true, ite_true, List.map_cons, List.sum_cons]
        rw [ih hrest]
      · have hg2 : hasGrade i = false := by revert hg; cases hasGrade i <;> simp
        have hw0 : itemW i = 0 := hp i (List.mem_cons_self i rest) he2 hg2
        simp only [List.filter_cons, he2, hg2, Bool.not_false, Bool.true_and,
          Bool.and_false, if_false, Bool.false_eq_true, ite_false, ite_true,
          List.map_cons, List.sum_cons, hw0, zero_mul, zero_div, zero_add]
        exact ih hrest

/-- `findIndex` followed by `get?` is exactly `find?`. -/
theorem findIndex_get {α : Type} (p : α → Bool) (l : List α) :
    (match findIndex p l with
     | some i => l.get? i
     | none => none) = l.find? p := by
  induction l with
  | nil => rfl
  | cons a rest ih =>
    by_cases ha : p a = true
    · simp [findIndex, ha, List.find?_cons_of_pos rest ha]
    · have ha2 : p a = false := by revert ha; cases p a <;> simp
      rw [List.find?_cons_of_neg rest (by simp [ha2])]
      rw [← ih]
      simp only [findIndex, ha2, Bool.false_eq_true, if_false, ite_false]
      cases findIndex p rest <;> simp

theorem examItem_eq_find (items : List Assessment) :
    examItem items = items.find? isExamB := by
  rw [examItem, examIdx, ← findIndex_get isExamB items]

/-! ## Claim C1: the exam back-solver formula -/

/-- C1: whenever `canAutoCalcExam` holds, the computed required exam grade
equals `clamp((manualFinalGrade - otherContribution) / examWeight * 100, 0,
100)`, where `otherContribution` is the sum over non-Exam items of
`clamp(weight) * clamp(grade) / 100`; in particular, on
`[{Assignment, w=50, g=80}, {Exam, w=50, g=?}]` with manual final grade 70
the solver yields 60. -/
theorem requiredExamGrade_spec :
    (∀ (items : List Assessment) (fsg : String) (f : ℚ),
      canAutoCalcExam items fsg = true → finalGradeNumeric fsg = some f →
      requiredExamToHitFinal items fsg =
        some (clamp ((f - ((items.filter fun i => !isExamB i).map
            fun i => itemW i * itemG i / 100).sum) / examWeight items * 100) 0 100)) ∧
    requiredExamToHitFinal c1Items "70" = some 60 := by
  constructor
  · intro items fsg f hcan hfgn
    have hmiss : otherAnyMissing items = false := by
      have := hcan
      simp only [canAutoCalcExam, Bool.and_eq_true, Bool.not_eq_true'] at this
      exact this.2
    rw [requiredExamToHitFinal, if_pos hcan, hfgn]
    simp only [otherContribution_of_no_missing items hmiss, Option.map_some']
  · with_unfolding_all decide

/-- Witness for C1: the round-trip configuration is solvable and the
theorem's hypotheses hold at it. -/
theorem requiredExamGrade_spec_witness :
    canAutoCalcExam c1Items "70" = true ∧
      requiredExamToHitFinal c1Items "70" = some 60 :=
  ⟨by with_unfolding_all decide, requiredExamGrade_spec.2⟩

/-! ## Claim C4: the solvability condition -/

/-- C4 counterexample: a list with two Exam-typed items (so not "exactly
one") still satisfies `canAutoCalcExam` with a present manual final grade —
the code only requires the first Exam-typed item to exist and have positive
weight. -/
theorem canAutoCalcExam_counterexample :
    canAutoCalcExam c4Items "70" = true ∧
      (c4Items.filter isExamB).length = 2 ∧
      ¬ (c4Items.filter isExamB).length = 1 := by
  refine ⟨by with_unfolding_all decide, by with_unfolding_all decide,
    by with_unfolding_all decide⟩

/-- C4 (amended): `canAutoCalcExam` is true if and only if: the manual
final grade is present (non-blank after trimming; every present string is
numeric under the lenient parser); at least one item is Exam-typed and the
first such item's clamped parsed weight is strictly positive; and every
non-Exam item with positive clamped parsed weight has a grade present. -/
theorem canAutoCalcExam_iff (items : List Assessment) (fsg : String) :
    canAutoCalcExam items fsg = true ↔
      (jsTrim fsg ≠ "" ∧ firstExamHasPosWeight items = true ∧
        ∀ i ∈ items, isExamB i = false → 0 < itemW i → hasGrade i = true) := by
  have hfgn : (finalGradeNumeric fsg).isSome = true ↔ jsTrim fsg ≠ "" := by
    rw [finalGradeNumeric]
    by_cases h : jsTrim fsg ≠ "" <;> simp [h]
  have hexam : ((examItem items).isSome && decide (0 < examWeight items)) = true ↔
      firstExamHasPosWeight items = true := by
    rw [examWeight, examItem_eq_find, firstExamHasPosWeight]
    cases h : items.find? isExamB <;> simp [h]
  have hmiss : (!otherAnyMissing items) = true ↔
      (∀ i ∈ items, isExamB i = false → 0 < itemW i → hasGrade i = true) := by
    rw [Bool.not_eq_true', otherAnyMissing_eq]
    rw [List.any_eq_false]
    constructor
    · intro h i hi hex hw
      have h2 := h i hi
      simp only [hex, Bool.not_false, Bool.true_and, Bool.and_eq_true,
        decide_eq_true_eq, not_and, Bool.not_eq_true'] at h2
      by_contra hg
      have hg2 : hasGrade i = false := by revert hg; cases hasGrade i <;> simp
      exact absurd hw (by simpa [hg2] using h2)
    · intro h i hi
      by_cases hex : isExamB i = true
      · simp [hex]
      · have hex2 : isExamB i = false := by revert hex; cases isExamB i <;> simp
        by_cases hgr : hasGrade i = true
        · simp [hgr]
        · have hgr2 : hasGrade i = false := by revert hgr; cases hasGrade i <;> simp
          by_cases hw : 0 < itemW i
          · exact absurd (h i hi hex2 hw) (by simp [hgr2])
          · simp [hex2, hgr2, hw]
  constructor
  · intro h
    simp only [canAutoCalcExam, Bool.and_eq_true] at h
    obtain ⟨⟨⟨h1, h2⟩, h3⟩, h4⟩ := h
    refine ⟨hfgn.mp h1, hexam.mp (by rw [h2, h3]; rfl), hmiss.mp h4⟩
  · intro ⟨h1, h2, h3⟩
    have he := hexam.mpr h2
    simp only [Bool.and_eq_true] at he
    simp only [canAutoCalcExam, Bool.and_eq_true]
    exact ⟨⟨⟨hfgn.mpr h1, he.1⟩, he.2⟩, hmiss.mpr h3⟩

/-- Witness for C4 (amended): the round-trip list satisfies the amended
conditions, hence `canAutoCalcExam`. -/
theorem canAutoCalcExam_iff_witness : canAutoCalcExam c3Items "70" = true :=
  (canAutoCalcExam_iff c3Items "70").mpr (by with_unfolding_all decide)

/-! ## Claim C3: the auto-solve write-back frame -/

/-- C3: when auto-solve is enabled and the configuration solvable, the
write-back leaves the item list unchanged when the Exam item's stored grade
is present and its parsed value (read, as everywhere in the source, through
`clamp(toNum(...))`) is within 0.05 of the computed required exam grade;
otherwise it overwrites only that item's `grade` field with the required
grade formatted to one decimal place — every other field and every other
item is untouched (the result is a single `List.set` at the exam index). -/
theorem autoSolve_frame (items : List Assessment) (fsg : String) (req : ℚ)
    (idx : Nat) (cur : Assessment)
    (hcan : canAutoCalcExam items fsg = true)
    (hreq : requiredExamToHitFinal items fsg = some req)
    (hidx : examIdx items = some idx)
    (hcur : items.get? idx = some cur) :
    (cur.grade.getD "" ≠ "" →
      approxEqual (clamp (toNum (some (cur.grade.getD ""))) 0 100)
        (clamp req 0 100) (1 / 20) = true →
      autoSolveWriteBack true items fsg = items) ∧
    ((cur.grade.getD "" = "" ∨
      approxEqual (clamp (toNum (some (cur.grade.getD ""))) 0 100)
        (clamp req 0 100) (1 / 20) = false) →
      autoSolveWriteBack true items fsg =
        items.set idx { cur with grade := some (fmt1 (clamp req 0 100)) }) := by
  constructor
  · intro h1 h2
    have h2i := h2
    rw [one_div] at h2i
    simp only [autoSolveWriteBack, Bool.not_true, Bool.false_eq_true, if_false,
      ite_false, hcan, hreq, hidx, hcur, h1, ite_true, if_true]
    simp [h1, h2i]
  · intro hcase
    simp only [autoSolveWriteBack, Bool.not_true, Bool.false_eq_true, if_false,
      ite_false, hcan, hreq, hidx, hcur]
    rcases hcase with h1 | h2
    · simp [h1]
    · have h2i := h2
      rw [one_div] at h2i
      by_cases h1 : cur.grade.getD "" = ""
      · simp [h1]
      · simp [h1, h2i]

/-- Witness for C3: with the Exam grade already stored as `"60.0"` and
required grade 60, the write-back is the identity. -/
theorem autoSolve_frame_witness : autoSolveWriteBack true c3Items "70" = c3Items :=
  (autoSolve_frame c3Items "70" 60 1 c3Exam (by with_unfolding_all decide)
    (by with_unfolding_all decide) (by with_unfolding_all decide)
    (by with_unfolding_all decide)).1 (by with_unfolding_all decide)
    (by with_unfolding_all decide)

/-! ## Claims C8 and C10: clearing the Exam grade -/

/-- What the shared clearing body does: identity when there is no Exam item
or its grade is already empty, otherwise a single `List.set` that empties
the first Exam item's grade. -/
theorem clearFirstExamGrade_spec (items : List Assessment) :
    (examIdx items = none → clearFirstExamGrade items = items) ∧
    (∀ idx cur, examIdx items = some idx → items.get? idx = some cur →
      (cur.grade.getD "" = "" → clearFirstExamGrade items = items) ∧
      (cur.grade.getD "" ≠ "" →
        clearFirstExamGrade items = items.set idx { cur with grade := some "" })) := by
  constructor
  · intro hnone
    have hidx2 : findIndex isExamB items = none := hnone
    simp only [clearFirstExamGrade, hidx2]
  · intro idx cur hidx hcur
    have hidx2 : findIndex isExamB items = some idx := hidx
    constructor
    · intro hempty
      simp only [clearFirstExamGrade, hidx2, hcur]
      simp [hempty]
    · intro hne
      simp only [clearFirstExamGrade, hidx2, hcur]
      simp [hne]

/-- C8: toggling `autoSolveExamEnabled` from true to false clears the first
Exam item's grade (to the empty string) when it was non-empty and changes
nothing else: the flag flips, target pass and manual final grade are
untouched, and the item list is either unchanged (no Exam item, or grade
already empty) or a single `List.set` replacing only the Exam item's
`grade` field. -/
theorem toggleAutoCalc_spec (st : PlannerState)
    (hon : st.autoCalcExamFromFinal = true) :
    (toggleAutoCalc st).autoCalcExamFromFinal = false ∧
    (toggleAutoCalc st).targetPass = st.targetPass ∧
    (toggleAutoCalc st).finalSubjectGrade = st.finalSubjectGrade ∧
    (examIdx st.items = none → (toggleAutoCalc st).items = st.items) ∧
    (∀ idx cur, examIdx st.items = some idx → st.items.get? idx = some cur →
      (cur.grade.getD "" = "" → (toggleAutoCalc st).items = st.items) ∧
      (cur.grade.getD "" ≠ "" →
        (toggleAutoCalc st).items = st.items.set idx { cur with grade := some "" })) := by
  have hitems : (toggleAutoCalc st).items = clearFirstExamGrade st.items := by
    simp [toggleAutoCalc, hon]
  refine ⟨by simp [toggleAutoCalc, hon], by simp [toggleAutoCalc, hon],
    by simp [toggleAutoCalc, hon], fun hnone => ?_, fun idx cur hidx hcur => ?_⟩
  · rw [hitems]; exact (clearFirstExamGrade_spec st.items).1 hnone
  · have h2 := (clearFirstExamGrade_spec st.items).2 idx cur hidx hcur
    exact ⟨fun he => by rw [hitems]; exact h2.1 he,
      fun hne => by rw [hitems]; exact h2.2 hne⟩

/-- Witness for C8: toggling the enabled state `c8State` off rewrites
exactly the Exam item's grade to the empty string, flips the flag, and
keeps the other scalar fields. -/
theorem toggleAutoCalc_spec_witness :
    (toggleAutoCalc c8State).items =
      c8State.items.set 1 { c3Exam with grade := some "" } ∧
    (toggleAutoCalc c8State).autoCalcExamFromFinal = false :=
  ⟨((toggleAutoCalc_spec c8State (by with_unfolding_all decide)).2.2.2.2 1 c3Exam
      (by with_unfolding_all decide) (by with_unfolding_all decide)).2
      (by with_unfolding_all decide),
    (toggleAutoCalc_spec c8State (by with_unfolding_all decide)).1⟩

/-- C10: when auto-solve is enabled and the manual final grade is blank
after trimming, the reconciliation effect clears the first Exam item's
grade to the empty string when it was non-empty and otherwise leaves the
list unchanged; no other field of any item is modified (the only change is
a single `List.set` of the Exam item's `grade`). -/
theorem reconcileBlankFinal_spec (items : List Assessment) (fsg : String)
    (hblank : jsTrim fsg = "") :
    (examIdx items = none → reconcileBlankFinal true fsg items = items) ∧
    (∀ idx cur, examIdx items = some idx → items.get? idx = some cur →
      (cur.grade.getD "" = "" → reconcileBlankFinal true fsg items = items) ∧
      (cur.grade.getD "" ≠ "" →
        reconcileBlankFinal true fsg items =
          items.set idx { cur with grade := some "" })) := by
  have hred : reconcileBlankFinal true fsg items = clearFirstExamGrade items := by
    simp [reconcileBlankFinal, hblank]
  refine ⟨fun hnone => ?_, fun idx cur hidx hcur => ?_⟩
  · rw [hred]; exact (clearFirstExamGrade_spec items).1 hnone
  · have h2 := (clearFirstExamGrade_spec items).2 idx cur hidx hcur
    exact ⟨fun he => by rw [hred]; exact h2.1 he,
      fun hne => by rw [hred]; exact h2.2 hne⟩

/-- Witness for C10: with a blank manual final grade the reconciliation
clears the stored `"60.0"` Exam grade of `c3Items`. -/
theorem reconcileBlankFinal_spec_witness :
    reconcileBlankFinal true "  " c3Items =
      c3Items.set 1 { c3Exam with grade := some "" } :=
  ((reconcileBlankFinal_spec c3Items "  " (by with_unfolding_all decide)).2 1 c3Exam
    (by with_unfolding_all decide) (by with_unfolding_all decide)).2
    (by with_unfolding_all decide)

/-! ## Claim C6: the lenient parser -/

/-- C6 counterexample: the parser does not strip non-numeric characters.
On `"a1"` the spec's strip-first parser yields 1, but the source's `toNum`
passes the whole string to `Number(...)` and gets `NaN`, hence 0. -/
theorem toNum_counterexample :
    toNum (some "a1") = 0 ∧ parseLenientSpec "a1" = 1 ∧
      toNum (some "a1") ≠ parseLenientSpec "a1" := by
  refine ⟨by with_unfolding_all decide, by with_unfolding_all decide,
    by with_unfolding_all decide⟩

/-- Characters that are decimal digits are unaffected by the comma
substitution. -/
theorem map_commaToDot_digits (l : List Char) (h : ∀ c ∈ l, c.isDigit = true) :
    l.map commaToDot = l := by
  induction l with
  | nil => rfl
  | cons c rest ih =>
    have hd := h c (List.mem_cons_self c rest)
    have hc : c ≠ ',' := by
      intro he
      rw [he] at hd
      exact absurd hd (by decide)
    simp [commaToDot, hc, ih fun x hx => h x (List.mem_cons_of_mem c hx)]

/-- C6 (amended): the lenient parser replaces every comma with a dot and
parses the whole string as a JS numeric literal, so a comma between digit
runs acts as the decimal separator; it never raises, and returns 0 whenever
the comma-replaced string is not a valid numeral — other characters are not
stripped, so a string with a stray letter parses to 0. -/
theorem toNum_amended :
    (∀ (a b : List Char), (∀ c ∈ a, c.isDigit = true) →
      (∀ c ∈ b, c.isDigit = true) →
      toNum (some ⟨a ++ ',' :: b⟩) = toNum (some ⟨a ++ '.' :: b⟩)) ∧
    (∀ s : String, jsNumber (s.data.map commaToDot) = none → toNum (some s) = 0) ∧
    toNum (some "7,5") = 15 / 2 ∧ toNum (some "a1") = 0 := by
  refine ⟨fun a b ha hb => ?_, fun s h => ?_, by with_unfolding_all decide,
    by with_unfolding_all decide⟩
  · have hmap : (a ++ ',' :: b).map commaToDot = a ++ '.' :: b := by
      rw [List.map_append, List.map_cons, map_commaToDot_digits a ha,
        map_commaToDot_digits b hb]
      rfl
    have hmap2 : (a ++ '.' :: b).map commaToDot = a ++ '.' :: b := by
      rw [List.map_append, List.map_cons, map_commaToDot_digits a ha,
        map_commaToDot_digits b hb]
      rfl
    simp only [toNum, Option.getD_some]
    rw [hmap, hmap2]
  · simp only [toNum, Option.getD_some]
    rw [h]

/-- Witness for C6 (amended): a comma between digits parses like a dot. -/
theorem toNum_amended_witness : toNum (some "1,5") = toNum (some "1.5") := by
  have h := toNum_amended.1 ['1'] ['5'] (by decide) (by decide)
  exact h

end GradePal
